import Mathlib

/-!
# Verification of the Branch Out recipients-search app (`streamlit_app.py`)

A shallow embedding of the data model and the filtering/presentation/export
pipeline of `streamlit_app.py`, together with proofs (and refutations) of the
specification's claims about it.

Modelling conventions:
* A cell of the table is `Option String`: `none` is a missing value
  (pandas `NaN`, produced by `read_csv` for empty fields), `some s` a text value.
* pandas `Series.astype(str)` turns a missing value into the literal text
  `"nan"` (Python `str(float("nan"))`), and leaves text values unchanged:
  `astypeStr` below.
* pandas `Series.str.contains(pat, case=False, na=False)` interprets `pat` as a
  regular expression (`regex=True` is the default) and searches it,
  case-insensitively, anywhere in each element.  `reSearch` below implements
  this search for patterns built from literal characters and the `.`
  metacharacter (which matches any single character); the queries appearing in
  this development use no other regex construct.  Case-insensitivity is
  modelled by ASCII case folding of both pattern and text.
* Python string truthiness (`if s:`) is non-emptiness; `str.strip()` removes
  leading and trailing whitespace.
-/

namespace BranchOut

/-- Character lists, the carrier for all string computations. -/
abbrev Str := List Char

/-- Whitespace characters removed by Python `str.strip()` (ASCII subset). -/
def isPySpace (c : Char) : Bool :=
  c == ' ' || c == '\t' || c == '\n' || c == '\r' || c == '\x0b' || c == '\x0c'

/-- Python `str.strip()`: drop leading and trailing whitespace. -/
def pyStrip (s : Str) : Str :=
  ((s.dropWhile isPySpace).reverse.dropWhile isPySpace).reverse

/-- ASCII case folding of one character (model of `re.IGNORECASE` folding). -/
def foldCase (c : Char) : Char := c.toLower

/-- ASCII case folding of a string. -/
def pyLower (s : Str) : Str := s.map foldCase

/-- Match a regex pattern (literals and `.` only) at the very start of `s`:
the whole pattern must be consumed, character by character, `.` matching any
single character. -/
def reMatchAt : Str → Str → Bool
  | [], _ => true
  | _ :: _, [] => false
  | p :: ps, c :: cs => (p == '.' || p == c) && reMatchAt ps cs

/-- `re.search`: does the pattern match starting at some position of `s`? -/
def reSearch (pat : Str) : Str → Bool
  | [] => reMatchAt pat []
  | c :: cs => reMatchAt pat (c :: cs) || reSearch pat cs

/-- `startsWithChars q s`: is `q` a prefix of `s`? -/
def startsWithChars : Str → Str → Bool
  | [], _ => true
  | _ :: _, [] => false
  | q :: qs, c :: cs => q == c && startsWithChars qs cs

/-- Plain (non-regex) substring containment: does `q` occur contiguously in
`s`?  This is the predicate the specification's words describe. -/
def isSubstrOf (q : Str) : Str → Bool
  | [] => startsWithChars q []
  | c :: cs => startsWithChars q (c :: cs) || isSubstrOf q cs

/-- pandas `Series.astype(str)` on one cell: text is unchanged, a missing
value becomes the text `"nan"`. -/
def astypeStr : Option String → Str
  | none => "nan".data
  | some s => s.data

/-- One cell of the table. -/
abbrev Cell := Option String

/-- The in-memory table: column names plus rows, each row a list of cells
parallel to `columns`. -/
structure Dataset where
  columns : List String
  rows : List (List Cell)
deriving DecidableEq, Repr

/-- Column access on a row, pandas `row[col]`: position of `c` in `columns`
(rows are stored parallel to the column list). -/
def getCell (cols : List String) (r : List Cell) (c : String) : Cell :=
  (r.get? (cols.indexOf c)).getD none

/-- `pd.DataFrame.empty`: true when there are no rows or no columns. -/
def Dataset.isEmpty (d : Dataset) : Bool :=
  d.rows.isEmpty || d.columns.isEmpty

/-! ## Column-name constants (`COL_RECIPIENTS` … in the source) -/

def COL_RECIPIENTS : String := "Recipients"
def COL_SUPS : String := "Supervisors"
def COL_PROPOSAL : String := "Proposal"
def COL_LAY : String := "Lay_Summary"

/-- `required = [COL_RECIPIENTS, COL_SUPS, COL_PROPOSAL, COL_LAY]`. -/
def requiredCols : List String := [COL_RECIPIENTS, COL_SUPS, COL_PROPOSAL, COL_LAY]

/-- The options of the "Search keyword in:" multiselect; `selected_fields` is
always a subset of these three. -/
inductive Field where
  | proposal
  | laySummary
  | supervisors
deriving DecidableEq, Repr

/-- The dict `{"Proposal": COL_PROPOSAL, "Lay_Summary": COL_LAY,
"Supervisors": COL_SUPS}` applied to a selected field. -/
def Field.col : Field → String
  | .proposal => COL_PROPOSAL
  | .laySummary => COL_LAY
  | .supervisors => COL_SUPS

/-! ## Filter engine (`streamlit_app.py` lines 68–88) -/

/-- The element-wise predicate of
`series.astype(str).str.contains(pat, case=False, na=False)`:
coerce the cell to text, then case-insensitive regex search of `pat`.
(After `astype(str)` no missing values remain, so `na=False` never applies.) -/
def containsMask (pat : Str) (cell : Cell) : Bool :=
  reSearch (pyLower pat) (pyLower (astypeStr cell))

/-- True when the row survives the recipient filter, given that the filter is
active: `results[COL_RECIPIENTS].astype(str).str.contains(recipient_query.strip(), case=False, na=False)`. -/
def recipientMask (rq : String) (cols : List String) (r : List Cell) : Bool :=
  containsMask (pyStrip rq.data) (getCell cols r COL_RECIPIENTS)

/-- Lines 71–72: if the stripped recipient query is non-empty (Python string
truthiness), keep the rows whose mask is true. -/
def recipientFilter (rq : String) (d : Dataset) : Dataset :=
  if pyStrip rq.data ≠ [] then
    { d with rows := d.rows.filter (fun r => recipientMask rq d.columns r) }
  else d

/-- True when the row survives the content-keyword filter, given that it is
active: OR over the selected fields of
`results[col].astype(str).str.contains(content_query, case=False, na=False)`
(note: the *untrimmed* `content_query`). -/
def contentMask (cq : String) (fields : List Field) (cols : List String)
    (r : List Cell) : Bool :=
  fields.any (fun f => containsMask cq.data (getCell cols r f.col))

/-- Lines 75–88: if the stripped content query is non-empty and at least one
field is selected, keep the rows satisfying the OR of the fields' masks. -/
def contentFilter (cq : String) (fields : List Field) (d : Dataset) : Dataset :=
  if pyStrip cq.data ≠ [] ∧ fields ≠ [] then
    { d with rows := d.rows.filter (fun r => contentMask cq fields d.columns r) }
  else d

/-- The whole filtering logic (lines 68–88): start from a copy of `df`, apply
the recipient filter, then the content-keyword filter. -/
def filterData (d : Dataset) (rq cq : String) (fields : List Field) : Dataset :=
  contentFilter cq fields (recipientFilter rq d)

/-! ## Presenter (lines 100–102): column reordering -/

/-- `front_cols = [COL_RECIPIENTS, COL_SUPS, COL_PROPOSAL, COL_LAY]`. -/
def frontCols : List String := [COL_RECIPIENTS, COL_SUPS, COL_PROPOSAL, COL_LAY]

/-- pandas `df[cols]`: select the named columns, in the given order. -/
def selectCols (d : Dataset) (cols : List String) : Dataset :=
  { columns := cols
    rows := d.rows.map (fun r => cols.map (fun c => getCell d.columns r c)) }

/-- Lines 100–102: `other_cols = [c for c in results.columns if c not in front_cols]`;
`ordered = results[front_cols + other_cols]` (the `if front_cols` guard is
always true since `front_cols` is a non-empty constant). -/
def reorderCols (d : Dataset) : Dataset :=
  selectCols d (frontCols ++ d.columns.filter (fun c => ! frontCols.contains c))

/-! ## Loader (`load_data`, lines 15–24)

The filesystem read `pd.read_csv(path, encoding_errors="ignore")` is external
to the program, so `load_data` takes its outcome as a parameter: either a
dataset or a raised Python exception.  The exception constructors below are
the ones `read_csv` can raise; every one of them is a subclass of `Exception`
(`PyExc.isException`), and only the first is a `FileNotFoundError`. -/

/-- Python exceptions that `pd.read_csv` may raise. -/
inductive PyExc where
  | fileNotFoundError (msg : String)
  | parserError (msg : String)
  | unicodeDecodeError (msg : String)
  | emptyDataError (msg : String)
  | osError (msg : String)
deriving DecidableEq, Repr

/-- Does `except FileNotFoundError` catch this exception? -/
def PyExc.isFileNotFoundError : PyExc → Bool
  | .fileNotFoundError _ => true
  | _ => false

/-- Does `except Exception` catch this exception?  All the listed classes
derive from `Exception`. -/
def PyExc.isException : PyExc → Bool := fun _ => true

/-- `str(e)`: the message carried by the exception. -/
def PyExc.message : PyExc → String
  | .fileNotFoundError m => m
  | .parserError m => m
  | .unicodeDecodeError m => m
  | .emptyDataError m => m
  | .osError m => m

/-- `pd.DataFrame()`: the empty dataset returned on failure. -/
def emptyDataset : Dataset := ⟨[], []⟩

/-- `load_data` (lines 15–24): try the read; catch `FileNotFoundError` first,
then any `Exception`, converting each into an empty dataset plus the
diagnostic texts passed to `st.error`.  The result is `.error` only if an
exception escapes to the caller. -/
def load_data (path : String) (readResult : Except PyExc Dataset) :
    Except PyExc (Dataset × List String) :=
  match readResult with
  | .ok d => .ok (d, [])
  | .error e =>
    if e.isFileNotFoundError then
      .ok (emptyDataset, ["File not found: " ++ path])
    else if e.isException then
      .ok (emptyDataset, ["Could not read CSV: " ++ e.message])
    else
      .error e

/-! ## Exporter: CSV serialization (`ordered.to_csv(index=False)`, minimal
quoting, `"\n"` line terminator, missing values written as empty fields) and
`.encode("utf-8-sig")`. -/

/-- Does the field need quoting under minimal quoting? -/
def needsQuoting (s : Str) : Bool :=
  s.any (fun c => c == ',' || c == '"' || c == '\n' || c == '\r')

/-- Double every `"` inside a quoted field. -/
def escapeQuotes : Str → Str
  | [] => []
  | c :: cs => if c == '"' then '"' :: '"' :: escapeQuotes cs else c :: escapeQuotes cs

/-- Serialize one raw field value, quoting it when needed. -/
def writeTextField (s : Str) : Str :=
  if needsQuoting s then '"' :: (escapeQuotes s ++ ['"']) else s

/-- The raw text a cell contributes to the CSV: missing values become the
empty field. -/
def cellRaw : Cell → Str
  | none => []
  | some s => s.data

/-- `joinSep sep fs`: concatenate `fs` with `sep` between fields. -/
def joinSep (sep : Str) : List Str → Str
  | [] => []
  | [f] => f
  | f :: g :: t => f ++ sep ++ joinSep sep (g :: t)

/-- One CSV record: the quoted fields joined by commas, then a newline. -/
def recordStr (fs : List Str) : Str :=
  joinSep [','] (fs.map writeTextField) ++ ['\n']

/-- `d.to_csv(index=False)`: header record followed by one record per row. -/
def toCsv (d : Dataset) : Str :=
  recordStr (d.columns.map String.data) ++
    (d.rows.map (fun r => recordStr (r.map cellRaw))).flatten

/-- UTF-8 encoding of one character (1–4 bytes). -/
def utf8EncodeChar (c : Char) : List Nat :=
  let n := c.toNat
  if n < 0x80 then [n]
  else if n < 0x800 then [0xC0 + n / 64, 0x80 + n % 64]
  else if n < 0x10000 then
    [0xE0 + n / 4096, 0x80 + n / 64 % 64, 0x80 + n % 64]
  else
    [0xF0 + n / 0x40000, 0x80 + n / 4096 % 64, 0x80 + n / 64 % 64, 0x80 + n % 64]

/-- UTF-8 encoding of a string. -/
def utf8Encode (s : Str) : List Nat := (s.map utf8EncodeChar).flatten

/-- The UTF-8 byte-order marker that `"utf-8-sig"` prepends. -/
def bomBytes : List Nat := [0xEF, 0xBB, 0xBF]

/-- `text.encode("utf-8-sig")`: byte-order marker, then the UTF-8 bytes. -/
def encodeUtf8Sig (s : Str) : List Nat := bomBytes ++ utf8Encode s

/-- State of the streaming UTF-8 decoder: the characters decoded so far
(reversed; `none` once a malformed byte was seen), the code-point bits
accumulated from an unfinished multi-byte sequence, and how many continuation
bytes are still expected. -/
structure Utf8State where
  acc : Option Str
  pending : Nat
  need : Nat
deriving DecidableEq, Repr

/-- Consume one byte of a UTF-8 stream. -/
def utf8Step (st : Utf8State) (b : Nat) : Utf8State :=
  match st.acc with
  | none => st
  | some cs =>
    if st.need = 0 then
      if b < 0x80 then ⟨some (Char.ofNat b :: cs), 0, 0⟩
      else if b < 0xC2 then ⟨none, 0, 0⟩
      else if b < 0xE0 then ⟨some cs, b - 0xC0, 1⟩
      else if b < 0xF0 then ⟨some cs, b - 0xE0, 2⟩
      else if b < 0xF5 then ⟨some cs, b - 0xF0, 3⟩
      else ⟨none, 0, 0⟩
    else
      if 0x80 ≤ b ∧ b < 0xC0 then
        if st.need = 1 then
          ⟨some (Char.ofNat (st.pending * 64 + (b - 0x80)) :: cs), 0, 0⟩
        else ⟨some cs, st.pending * 64 + (b - 0x80), st.need - 1⟩
      else ⟨none, 0, 0⟩

/-- UTF-8 decoding; `none` on a malformed or truncated byte stream. -/
def utf8Decode (bytes : List Nat) : Option Str :=
  match bytes.foldl utf8Step ⟨some [], 0, 0⟩ with
  | ⟨some cs, _, need⟩ => if need = 0 then some cs.reverse else none
  | ⟨none, _, _⟩ => none

/-- Decode a `"utf-8-sig"` byte stream: require the byte-order marker, then
UTF-8 decode the rest. -/
def decodeUtf8Sig (bytes : List Nat) : Option Str :=
  if bomBytes.isPrefixOf bytes then utf8Decode (bytes.drop 3) else none

/-! ## A CSV reader, for the export round-trip claim: a single-pass state
machine over the character stream. -/

/-- Parser mode: outside quotes, inside quotes, or just after a `"` seen
inside quotes (which is either the closing quote or the first half of an
escaped `""`). -/
inductive QMode where
  | normal
  | quoted
  | afterQuote
deriving DecidableEq, Repr

/-- Parser state: current mode, current field and record accumulators (kept
reversed), finished records (kept reversed). -/
structure CsvState where
  mode : QMode
  field : Str
  record : List Str
  records : List (List Str)
deriving DecidableEq, Repr

/-- Consume one character of CSV text. -/
def csvStep (st : CsvState) (c : Char) : CsvState :=
  match st.mode with
  | .normal =>
    if c == ',' then { st with field := [], record := st.field.reverse :: st.record }
    else if c == '\n' then
      { mode := .normal, field := [], record := []
        records := (st.field.reverse :: st.record).reverse :: st.records }
    else if c == '"' && st.field.isEmpty then { st with mode := .quoted }
    else { st with field := c :: st.field }
  | .quoted =>
    if c == '"' then { st with mode := .afterQuote }
    else { st with field := c :: st.field }
  | .afterQuote =>
    if c == '"' then { st with mode := .quoted, field := c :: st.field }
    else if c == ',' then
      { mode := .normal, field := [], record := st.field.reverse :: st.record
        records := st.records }
    else if c == '\n' then
      { mode := .normal, field := [], record := []
        records := (st.field.reverse :: st.record).reverse :: st.records }
    else { st with mode := .normal, field := c :: st.field }

/-- The initial parser state. -/
def csvInit : CsvState := ⟨.normal, [], [], []⟩

/-- Flush the state at end of input: a pending partial record (text not ending
in a newline) becomes a final record. -/
def csvFinish (st : CsvState) : List (List Str) :=
  if st.mode = .normal ∧ st.field = [] ∧ st.record = [] then st.records.reverse
  else ((st.field.reverse :: st.record).reverse :: st.records).reverse

/-- Parse CSV text into records of raw field values. -/
def csvParse (s : Str) : List (List Str) := csvFinish (s.foldl csvStep csvInit)

/-- Interpret one parsed data field as a cell: an empty field is a missing
value, as `pd.read_csv` reads it back. -/
def fieldCell (f : Str) : Cell :=
  if f = [] then none else some (String.mk f)

/-- Re-order the decoded records back to the original column order: read the
first record as the header, every later record as a row over that header, and
select the original columns. -/
def restoredRows (recs : List (List Str)) (origCols : List String) : List (List Cell) :=
  match recs with
  | [] => []
  | header :: rows =>
    rows.map (fun rec =>
      origCols.map (fun c => getCell (header.map String.mk) (rec.map fieldCell) c))

/-! ## The whole script run (lines 26–115) -/

/-- `file_name=` argument of `st.download_button`. -/
def downloadName : String := "BONF_recipients_filtered_results.csv"

/-- What one run of the script produces: a halt at `st.stop()` after the
empty-dataset check (line 31), a halt at `st.stop()` after the schema check
(line 39) with the two diagnostic payloads, or a rendered page with the two
metrics, the ordered table and the download artifact. -/
inductive AppOutcome where
  | haltedEmpty
  | haltedSchema (missing : List String) (availableHint : List String)
  | rendered (total matched : Nat) (table : Dataset) (csvBytes : List Nat)
      (name : String)
deriving DecidableEq, Repr

/-- One run of the script body after `load_data` (lines 30–115). -/
def runApp (d : Dataset) (rq cq : String) (fields : List Field) : AppOutcome :=
  if d.isEmpty then .haltedEmpty
  else
    let missing := requiredCols.filter (fun c => ! d.columns.contains c)
    if missing ≠ [] then .haltedSchema missing (d.columns.take 20)
    else
      let results := filterData d rq cq fields
      let ordered := reorderCols results
      .rendered d.rows.length results.rows.length ordered
        (encodeUtf8Sig (toCsv ordered)) downloadName

/-! ## Lemmas about `pyStrip` -/

theorem dropWhile_append_all {α : Type _} {p : α → Bool} {ws l : List α}
    (h : ∀ c ∈ ws, p c = true) :
    (ws ++ l).dropWhile p = l.dropWhile p := by
  induction ws with
  | nil => rfl
  | cons c t ih =>
    have hc : p c = true := h c (List.mem_cons_self c t)
    simp only [List.cons_append, List.dropWhile_cons, hc, if_true]
    exact ih (fun x hx => h x (List.mem_cons_of_mem c hx))

theorem dropWhile_append_of_ne {α : Type _} {p : α → Bool} {s ws : List α}
    (hs : s.dropWhile p ≠ []) :
    (s ++ ws).dropWhile p = s.dropWhile p ++ ws := by
  induction s with
  | nil => simp at hs
  | cons c t ih =>
    by_cases hc : p c = true
    · simp only [List.cons_append, List.dropWhile_cons, hc, if_true]
      simp only [List.dropWhile_cons, hc, if_true] at hs
      exact ih hs
    · simp [List.dropWhile_cons, hc]

theorem pyStrip_append_left {ws s : Str} (h : ∀ c ∈ ws, isPySpace c = true) :
    pyStrip (ws ++ s) = pyStrip s := by
  unfold pyStrip
  rw [dropWhile_append_all h]

theorem pyStrip_append_right {s ws : Str} (h : ∀ c ∈ ws, isPySpace c = true) :
    pyStrip (s ++ ws) = pyStrip s := by
  unfold pyStrip
  by_cases hs : s.dropWhile isPySpace = []
  · have hall : ∀ c ∈ s, isPySpace c = true := List.dropWhile_eq_nil_iff.mp hs
    have h1 : (s ++ ws).dropWhile isPySpace = [] := by
      refine List.dropWhile_eq_nil_iff.mpr ?_
      intro x hx
      rcases List.mem_append.mp hx with hx | hx
      · exact hall x hx
      · exact h x hx
    rw [h1, hs]
  · rw [dropWhile_append_of_ne hs, List.reverse_append,
      dropWhile_append_all (fun c hc => h c (List.mem_reverse.mp hc))]

theorem pyStrip_pad {ws1 ws2 s : Str} (h1 : ∀ c ∈ ws1, isPySpace c = true)
    (h2 : ∀ c ∈ ws2, isPySpace c = true) :
    pyStrip (ws1 ++ (s ++ ws2)) = pyStrip s := by
  rw [pyStrip_append_left h1, pyStrip_append_right h2]

/-! ## Regex search versus plain substring containment -/

theorem reMatchAt_eq_startsWith {pat : Str} (h : ∀ c ∈ pat, (c == '.') = false) :
    ∀ s : Str, reMatchAt pat s = startsWithChars pat s := by
  induction pat with
  | nil => intro s; cases s <;> rfl
  | cons p ps ih =>
    intro s
    cases s with
    | nil => rfl
    | cons c cs =>
      have hp : (p == '.') = false := h p (List.mem_cons_self p ps)
      simp only [reMatchAt, startsWithChars, hp, Bool.false_or]
      rw [ih (fun x hx => h x (List.mem_cons_of_mem p hx))]

theorem reSearch_eq_isSubstrOf {pat : Str} (h : ∀ c ∈ pat, (c == '.') = false) :
    ∀ s : Str, reSearch pat s = isSubstrOf pat s := by
  intro s
  induction s with
  | nil => simp only [reSearch, isSubstrOf, reMatchAt_eq_startsWith h]
  | cons c cs ih =>
    simp only [reSearch, isSubstrOf, reMatchAt_eq_startsWith h, ih]

/-! ## Structural lemmas about the two filters -/

theorem recipientFilter_columns (rq : String) (d : Dataset) :
    (recipientFilter rq d).columns = d.columns := by
  unfold recipientFilter
  split <;> rfl

theorem contentFilter_columns (cq : String) (fields : List Field) (d : Dataset) :
    (contentFilter cq fields d).columns = d.columns := by
  unfold contentFilter
  split <;> rfl

theorem filterData_columns (d : Dataset) (rq cq : String) (fields : List Field) :
    (filterData d rq cq fields).columns = d.columns := by
  unfold filterData
  rw [contentFilter_columns, recipientFilter_columns]

theorem mem_recipientFilter {rq : String} {d : Dataset} {r : List Cell} :
    r ∈ (recipientFilter rq d).rows ↔
      r ∈ d.rows ∧ (pyStrip rq.data ≠ [] → recipientMask rq d.columns r = true) := by
  unfold recipientFilter
  by_cases h : pyStrip rq.data ≠ []
  · simp [h, List.mem_filter]
  · simp [h]

theorem mem_contentFilter {cq : String} {fields : List Field} {d : Dataset}
    {r : List Cell} :
    r ∈ (contentFilter cq fields d).rows ↔
      r ∈ d.rows ∧
        (pyStrip cq.data ≠ [] ∧ fields ≠ [] → contentMask cq fields d.columns r = true) := by
  unfold contentFilter
  by_cases h : pyStrip cq.data ≠ [] ∧ fields ≠ []
  · simp [h, List.mem_filter]
  · simp [h]

theorem mem_filterData {d : Dataset} {rq cq : String} {fields : List Field}
    {r : List Cell} :
    r ∈ (filterData d rq cq fields).rows ↔
      r ∈ d.rows ∧
        (pyStrip rq.data ≠ [] → recipientMask rq d.columns r = true) ∧
        (pyStrip cq.data ≠ [] ∧ fields ≠ [] → contentMask cq fields d.columns r = true) := by
  unfold filterData
  rw [mem_contentFilter, recipientFilter_columns, mem_recipientFilter, and_assoc]

theorem recipientFilter_congr {rq1 rq2 : String} (d : Dataset)
    (h : pyStrip rq1.data = pyStrip rq2.data) :
    recipientFilter rq1 d = recipientFilter rq2 d := by
  unfold recipientFilter recipientMask
  rw [h]

theorem pyStrip_nil : pyStrip [] = [] := rfl

theorem pyStrip_empty : pyStrip ("" : String).data = [] := rfl

theorem recipientFilter_empty_query (d : Dataset) : recipientFilter "" d = d := by
  unfold recipientFilter
  simp [pyStrip_nil, pyStrip_empty]

theorem filterData_no_fields (d : Dataset) (rq cq : String) :
    filterData d rq cq [] = recipientFilter rq d := by
  unfold filterData contentFilter
  simp

theorem filterData_no_content (d : Dataset) (rq : String) :
    filterData d rq "" [] = recipientFilter rq d :=
  filterData_no_fields d rq ""

theorem recipientFilter_rows_eq_filter {rq : String} (d : Dataset)
    (hq : pyStrip rq.data ≠ []) :
    (recipientFilter rq d).rows = d.rows.filter (recipientMask rq d.columns) := by
  unfold recipientFilter
  rw [if_pos hq]

/-! ## Sample datasets for concrete counterexamples and witnesses -/

/-- A well-formed two-row dataset over the four required columns. -/
def sampleRow1 : List Cell :=
  [some "Alice Wintink", some "Dr. S", some "neurofeedback study", some "Lay text"]

def sampleRow2 : List Cell :=
  [some "Bob Lee", some "Dr. T", some "robotics", some "Other lay"]

def sampleD : Dataset := ⟨requiredCols, [sampleRow1, sampleRow2]⟩

/-- One row whose `Recipients` cell is missing (pandas `NaN`). -/
def nullRow : List Cell := [none, some "Dr. S", some "proposal text", some "lay text"]

def dNull : Dataset := ⟨requiredCols, [nullRow]⟩

/-- One row whose `Recipients` text is `"abc"`. -/
def dotRow : List Cell := [some "abc", some "S", some "P", some "L"]

def dDot : Dataset := ⟨requiredCols, [dotRow]⟩

/-- One row whose `Proposal` text is `"neurofeedback study"`. -/
def padRow : List Cell := [some "A", some "S", some "neurofeedback study", some "L"]

def dPad : Dataset := ⟨requiredCols, [padRow]⟩

/-! ## C1 -/

/-- C1 counterexample: the claim "any row whose Recipients value is null/absent
is excluded from the Filtered view" is false.  With the non-empty recipient
query `"nan"`, the dataset `dNull`, whose only row has a missing `Recipients`
cell, is returned unchanged by the filter: `astype(str)` coerces the missing
value to the text `"nan"` before `str.contains` runs, so `na=False` never

applies and the null row matches. -/
theorem c1_null_excluded_cex :
    pyStrip ("nan" : String).data ≠ [] ∧
    getCell dNull.columns nullRow COL_RECIPIENTS = none ∧
    (filterData dNull "nan" "" []).rows = dNull.rows ∧
    dNull.rows ≠ [] := by
  decide

/-- C1 (amended): a row whose `Recipients` cell is missing is coerced to the
text `"nan"`, and under a recipient query that is non-empty after trimming it
belongs to the Filtered view exactly when the trimmed query, as a
case-insensitive regex, matches somewhere in `"nan"`; no error is raised, and
for every query not matching `"nan"` the null row is excluded. -/
theorem c1_null_recipients_amended (d : Dataset) (q : String) (r : List Cell)
    (hcol : COL_RECIPIENTS ∈ d.columns) (hr : r ∈ d.rows)
    (hnull : getCell d.columns r COL_RECIPIENTS = none)
    (hq : pyStrip q.data ≠ []) :
    r ∈ (filterData d q "" []).rows ↔
      reSearch (pyLower (pyStrip q.data)) (pyLower ("nan" : String).data) = true := by
  rw [mem_filterData]
  simp [hr, hq, pyStrip_empty, recipientMask, containsMask, hnull, astypeStr]

/-- C1 witness: the amended statement at the concrete dataset `dNull`, query
`"na"`, and its null row. -/
theorem c1_null_recipients_witness :
    nullRow ∈ (filterData dNull "na" "" []).rows ↔
      reSearch (pyLower (pyStrip ("na" : String).data))
        (pyLower ("nan" : String).data) = true :=
  c1_null_recipients_amended dNull "na" nullRow (by decide) (by decide) (by decide)
    (by decide)

/-! ## C2 -/

/-- C2 counterexample: the claim that the recipient filter partitions the
dataset by case-insensitive *substring* containment of the trimmed query is
false.  `str.contains` treats the query as a regular expression: with query
`"a.c"` the row whose `Recipients` is `"abc"` is retained, although `"abc"`
does not contain `"a.c"` as a substring. -/
theorem c2_substring_partition_cex :
    pyStrip ("a.c" : String).data ≠ [] ∧
    (filterData dDot "a.c" "" []).rows = dDot.rows ∧
    dotRow ∈ dDot.rows ∧
    isSubstrOf (pyLower (pyStrip ("a.c" : String).data))
      (pyLower (astypeStr (getCell dDot.columns dotRow COL_RECIPIENTS))) = false := by
  decide

/-- C2 (amended): for a recipient query that is non-empty after trimming, the
filter partitions the dataset exactly (preserving order) by the predicate
actually computed — case-insensitive regex search of the trimmed query in the
textual coercion of the `Recipients` cell — and for queries containing no
regex metacharacter this predicate coincides with case-insensitive substring
containment on the coerced text. -/
theorem c2_partition_amended (d : Dataset) (q : String)
    (hcol : COL_RECIPIENTS ∈ d.columns) (hq : pyStrip q.data ≠ []) :
    (filterData d q "" []).rows.Sublist d.rows ∧
    (∀ r ∈ d.rows,
      r ∈ (filterData d q "" []).rows ↔ recipientMask q d.columns r = true) ∧
    ((∀ c ∈ pyLower (pyStrip q.data), (c == '.') = false) →
      ∀ r ∈ d.rows,
        r ∈ (filterData d q "" []).rows ↔
          isSubstrOf (pyLower (pyStrip q.data))
            (pyLower (astypeStr (getCell d.columns r COL_RECIPIENTS))) = true) := by
  rw [filterData_no_content, recipientFilter_rows_eq_filter d hq]
  refine ⟨List.filter_sublist d.rows, ?_, ?_⟩
  · intro r hr
    simp [List.mem_filter, hr]
  · intro hdot r hr
    simp only [List.mem_filter, hr, true_and]
    unfold recipientMask containsMask
    rw [reSearch_eq_isSubstrOf hdot]

/-- C2 witness: the amended partition statement at the concrete dataset `dDot`
and the metacharacter-free query `"BC"`. -/
theorem c2_partition_witness :
    (filterData dDot "BC" "" []).rows.Sublist dDot.rows ∧
    (dotRow ∈ (filterData dDot "BC" "" []).rows ↔
      recipientMask "BC" dDot.columns dotRow = true) ∧
    (dotRow ∈ (filterData dDot "BC" "" []).rows ↔
      isSubstrOf (pyLower (pyStrip ("BC" : String).data))
        (pyLower (astypeStr (getCell dDot.columns dotRow COL_RECIPIENTS))) = true) := by
  have h := c2_partition_amended dDot "BC" (by decide) (by decide)
  exact ⟨h.1, h.2.1 dotRow (by decide), h.2.2 (by decide) dotRow (by decide)⟩

/-! ## C3 -/

/-- C3: the recipient filter uses the whitespace-trimmed query — its result is
invariant under padding the query with leading/trailing whitespace — whereas
the active content filter matches the untrimmed query: for the content query
`" neuro"` (leading space) the result differs from matching the trimmed
`"neuro"` on the concrete dataset `dPad`. -/
theorem c3_trim_asymmetry :
    (∀ (d : Dataset) (q : String) (ws1 ws2 : Str),
        (∀ c ∈ ws1, isPySpace c = true) → (∀ c ∈ ws2, isPySpace c = true) →
        recipientFilter (String.mk (ws1 ++ (q.data ++ ws2))) d = recipientFilter q d) ∧
    pyStrip (" neuro" : String).data ≠ [] ∧
    String.mk (pyStrip (" neuro" : String).data) = "neuro" ∧
    (filterData dPad "" " neuro" [Field.proposal]).rows = [] ∧
    (filterData dPad "" "neuro" [Field.proposal]).rows = dPad.rows ∧
    dPad.rows ≠ [] := by
  refine ⟨?_, by decide, by decide, by decide, by decide, by decide⟩
  intro d q ws1 ws2 h1 h2
  exact recipientFilter_congr d (pyStrip_pad h1 h2)

/-- C3 witness: whitespace-padding invariance of the recipient filter at a
concrete dataset, query and padding. -/
theorem c3_trim_witness :
    recipientFilter (String.mk ([' '] ++ (("Wintink" : String).data ++ [' ', '\t']))) dPad =
      recipientFilter "Wintink" dPad :=
  c3_trim_asymmetry.1 dPad "Wintink" [' '] [' ', '\t'] (by decide) (by decide)

/-! ## C4 -/

/-- C4: when both queries are empty or whitespace-only, the Filtered view is
the dataset itself — same rows, same order (the filters are the identity). -/
theorem c4_empty_queries_identity (d : Dataset) (rq cq : String)
    (fields : List Field) (h1 : pyStrip rq.data = []) (h2 : pyStrip cq.data = []) :
    filterData d rq cq fields = d := by
  unfold filterData contentFilter recipientFilter
  simp [h1, h2]

/-- C4 witness: identity of the empty/whitespace-only query pair on the
concrete dataset `sampleD`. -/
theorem c4_empty_queries_witness :
    filterData sampleD "" "   " [Field.proposal, Field.laySummary] = sampleD :=
  c4_empty_queries_identity sampleD "" "   " [Field.proposal, Field.laySummary]
    (by decide) (by decide)

/-! ## C5 -/

/-- C5 counterexample: the claim's inclusion of the case `F1 = ∅` in the
monotonicity statement is false.  With `F1 = ∅ ⊆ F2 = {Proposal}` and the
active content query `"x"`, the row of `dPad` is in the Filtered view computed
with `F1` (the content filter is a no-op) but not in the view computed with
`F2`. -/
theorem c5_empty_fields_cex :
    ([] : List Field) ⊆ [Field.proposal] ∧
    pyStrip ("x" : String).data ≠ [] ∧
    (filterData dPad "" "x" []).rows = dPad.rows ∧
    (filterData dPad "" "x" [Field.proposal]).rows = [] ∧
    dPad.rows ≠ [] := by
  refine ⟨List.nil_subset _, by decide, by decide, by decide, by decide⟩

/-- C5 (amended): enlarging a *non-empty* selected-fields set can only add
rows, never remove any (OR semantics); for `F1 = ∅` the content filter is a
no-op, so the view computed with no fields is a *superset* of the view
computed with any field set. -/
theorem c5_fields_monotone (d : Dataset) (rq cq : String) (F1 F2 : List Field)
    (hsub : F1 ⊆ F2) (hne : F1 ≠ []) :
    (∀ r ∈ (filterData d rq cq F1).rows, r ∈ (filterData d rq cq F2).rows) ∧
    filterData d rq cq [] = recipientFilter rq d ∧
    (∀ r ∈ (filterData d rq cq F2).rows, r ∈ (filterData d rq cq []).rows) := by
  refine ⟨?_, filterData_no_fields d rq cq, ?_⟩
  · intro r hr
    rw [mem_filterData] at hr ⊢
    obtain ⟨h1, h2, h3⟩ := hr
    refine ⟨h1, h2, ?_⟩
    rintro ⟨hcq, -⟩
    have hmask := h3 ⟨hcq, hne⟩
    unfold contentMask at hmask ⊢
    rw [List.any_eq_true] at hmask ⊢
    obtain ⟨f, hf, hp⟩ := hmask
    exact ⟨f, hsub hf, hp⟩
  · intro r hr
    rw [mem_filterData] at hr
    rw [filterData_no_fields, mem_recipientFilter]
    exact ⟨hr.1, hr.2.1⟩

/-- C5 witness: monotonicity at concrete non-empty field sets
`{Proposal} ⊆ {Proposal, Lay_Summary}` on `sampleD` with content query
`"neuro"`. -/
theorem c5_fields_monotone_witness :
    sampleRow1 ∈
      (filterData sampleD "" "neuro" [Field.proposal, Field.laySummary]).rows ∧
    filterData sampleD "" "neuro" [] = recipientFilter "" sampleD := by
  have h := c5_fields_monotone sampleD "" "neuro" [Field.proposal]
    [Field.proposal, Field.laySummary] (by intro f hf; fin_cases hf <;> decide)
    (by decide)
  exact ⟨h.1 sampleRow1 (by decide), h.2.1⟩

/-! ## C6 -/

/-- C6: filtering with both queries at once equals filtering first by the
recipient query alone and then by the content query alone (AND composition),
and a row is in the combined result iff it is a dataset row passing both
active filters. -/
theorem c6_and_composition (d : Dataset) (rq cq : String) (fields : List Field) :
    filterData d rq cq fields = filterData (filterData d rq "" []) "" cq fields ∧
    (∀ r, r ∈ (filterData d rq cq fields).rows ↔
      r ∈ d.rows ∧
        (pyStrip rq.data ≠ [] → recipientMask rq d.columns r = true) ∧
        (pyStrip cq.data ≠ [] ∧ fields ≠ [] →
          contentMask cq fields d.columns r = true)) := by
  constructor
  · rw [filterData_no_content]
    show filterData d rq cq fields = filterData (recipientFilter rq d) "" cq fields
    unfold filterData
    rw [recipientFilter_empty_query]
  · intro r
    exact mem_filterData

/-! ## Lemmas about `getCell` and column reordering -/

theorem getCell_map_self {cols : List String} {c : String} (hc : c ∈ cols)
    (f : String → Cell) : getCell cols (cols.map f) c = f c := by
  unfold getCell
  have hlt : cols.indexOf c < cols.length := List.indexOf_lt_length.mpr hc
  have hlt' : cols.indexOf c < (cols.map f).length := by
    rw [List.length_map]; exact hlt
  rw [List.get?_eq_get hlt', List.get_map, Option.getD_some]
  congr 1
  exact List.indexOf_get hlt

theorem row_reconstruct {cols : List String} {r : List Cell}
    (hnd : cols.Nodup) (hlen : r.length = cols.length) :
    cols.map (fun c => getCell cols r c) = r := by
  apply List.ext_get
  · rw [List.length_map, hlen]
  · intro n h1 h2
    rw [List.get_map]
    unfold getCell
    have hn : n < cols.length := by rwa [List.length_map] at h1
    have hmem : cols.get ⟨n, hn⟩ ∈ cols := List.get_mem cols n hn
    have hlt : cols.indexOf (cols.get ⟨n, hn⟩) < cols.length :=
      List.indexOf_lt_length.mpr hmem
    have hgets : cols.get ⟨cols.indexOf (cols.get ⟨n, hn⟩), hlt⟩ = cols.get ⟨n, hn⟩ :=
      List.indexOf_get hlt
    have hidx : cols.indexOf (cols.get ⟨n, hn⟩) = n := by
      have := (hnd.get_inj_iff).mp hgets
      exact congrArg Fin.val this
    rw [hidx, List.get?_eq_get h2, Option.getD_some]

theorem reorderCols_columns (d : Dataset) :
    (reorderCols d).columns =
      frontCols ++ d.columns.filter (fun c => ! frontCols.contains c) := rfl

theorem mem_reorderCols_columns {d : Dataset} {c : String} (hc : c ∈ d.columns) :
    c ∈ (reorderCols d).columns := by
  rw [reorderCols_columns, List.mem_append]
  by_cases hf : c ∈ frontCols
  · exact Or.inl hf
  · refine Or.inr (List.mem_filter.mpr ⟨hc, ?_⟩)
    rw [Bool.not_eq_true', ← Bool.not_eq_true]
    intro hel
    exact hf (List.elem_iff.mp hel)

theorem reorderCols_columns_nodup {d : Dataset} (hnd : d.columns.Nodup) :
    (reorderCols d).columns.Nodup := by
  rw [reorderCols_columns]
  refine List.Nodup.append (by decide) (hnd.filter _) ?_
  intro a haf hafilter
  have := (List.mem_filter.mp hafilter).2
  rw [Bool.not_eq_true', ← Bool.not_eq_true] at this
  exact this (List.elem_iff.mpr haf)

theorem reorderCols_columns_perm {d : Dataset} (hnd : d.columns.Nodup)
    (hreq : requiredCols ⊆ d.columns) :
    (reorderCols d).columns.Perm d.columns := by
  rw [List.perm_ext_iff_of_nodup (reorderCols_columns_nodup hnd) hnd]
  intro a
  constructor
  · intro ha
    rw [reorderCols_columns, List.mem_append] at ha
    rcases ha with ha | ha
    · exact hreq ha
    · exact (List.mem_filter.mp ha).1
  · exact mem_reorderCols_columns

/-! ## C7 -/

/-- C7: for every schema-valid dataset and every filter outcome, the displayed
and exported table has the four required columns first, in the fixed order
`Recipients`, `Supervisors`, `Proposal`, `Lay_Summary`, followed by all
remaining columns in their original dataset order; no column is dropped (the
reordered column list is a permutation of the original), the table has one
reordered row per filtered row, and each reordered row still yields the
original cell under every original column name. -/
theorem c7_column_order (d : Dataset) (rq cq : String) (fields : List Field)
    (hnd : d.columns.Nodup) (hreq : requiredCols ⊆ d.columns) :
    (reorderCols (filterData d rq cq fields)).columns.take 4 = frontCols ∧
    (reorderCols (filterData d rq cq fields)).columns.drop 4 =
      d.columns.filter (fun c => ! frontCols.contains c) ∧
    (∀ c ∈ d.columns, c ∈ (reorderCols (filterData d rq cq fields)).columns) ∧
    (reorderCols (filterData d rq cq fields)).columns.Perm d.columns ∧
    (reorderCols (filterData d rq cq fields)).rows.length =
      (filterData d rq cq fields).rows.length ∧
    (∀ r ∈ (filterData d rq cq fields).rows, ∀ c ∈ d.columns,
      getCell (reorderCols (filterData d rq cq fields)).columns
        ((reorderCols (filterData d rq cq fields)).columns.map
          (fun c' => getCell d.columns r c')) c = getCell d.columns r c) := by
  have hcols : (filterData d rq cq fields).columns = d.columns :=
    filterData_columns d rq cq fields
  have hodc : (reorderCols (filterData d rq cq fields)).columns =
      frontCols ++ d.columns.filter (fun c => ! frontCols.contains c) := by
    rw [reorderCols_columns, hcols]
  refine ⟨?_, ?_, ?_, ?_, ?_, ?_⟩
  · rw [hodc]
    have h4 : 4 = frontCols.length := rfl
    rw [h4, List.take_left]
  · rw [hodc]
    have h4 : 4 = frontCols.length := rfl
    rw [h4, List.drop_left]
  · intro c hc
    have hc' : c ∈ (filterData d rq cq fields).columns := by rw [hcols]; exact hc
    exact mem_reorderCols_columns hc'
  · have h := reorderCols_columns_perm (d := filterData d rq cq fields)
      (by rw [hcols]; exact hnd) (by rw [hcols]; exact hreq)
    rwa [hcols] at h
  · simp [reorderCols, selectCols]
  · intro r hr c hc
    have hc' : c ∈ (filterData d rq cq fields).columns := by rw [hcols]; exact hc
    exact getCell_map_self (mem_reorderCols_columns hc') _

/-- A schema-valid dataset with one extra column before the required four. -/
def dWide : Dataset :=
  ⟨["Extra", "Recipients", "Supervisors", "Proposal", "Lay_Summary"],
   [[some "x", some "R name", some "S name", some "P text", some "L text"]]⟩

/-- C7 witness: column reordering at the concrete dataset `dWide`. -/
theorem c7_column_order_witness :
    (reorderCols (filterData dWide "" "" [])).columns.take 4 = frontCols ∧
    (reorderCols (filterData dWide "" "" [])).columns.Perm dWide.columns := by
  have h := c7_column_order dWide "" "" [] (by decide)
    (by intro a ha; fin_cases ha <;> decide)
  exact ⟨h.1, h.2.2.2.1⟩

/-! ## C9 -/

/-- C9: the loader never raises to its caller — for every path and every read
outcome `load_data` returns a value; a successful read is passed through; a
`FileNotFoundError` is classified as the file-not-found failure, and any other
exception as a read/parse failure carrying the underlying message; both
failure cases return the empty dataset plus a surfaced diagnostic, and the
script then halts gracefully on the empty dataset. -/
theorem c9_loader_total (path : String) (res : Except PyExc Dataset) :
    (∃ out, load_data path res = .ok out) ∧
    (∀ d0, res = .ok d0 → load_data path res = .ok (d0, [])) ∧
    (∀ e, res = .error e → e.isFileNotFoundError = true →
      load_data path res = .ok (emptyDataset, ["File not found: " ++ path])) ∧
    (∀ e, res = .error e → e.isFileNotFoundError = false →
      load_data path res = .ok (emptyDataset, ["Could not read CSV: " ++ e.message])) ∧
    (∀ rq cq fields, runApp emptyDataset rq cq fields = .haltedEmpty) := by
  refine ⟨?_, ?_, ?_, ?_, ?_⟩
  · cases res with
    | ok d => exact ⟨(d, []), rfl⟩
    | error e =>
      by_cases he : e.isFileNotFoundError = true
      · exact ⟨(emptyDataset, ["File not found: " ++ path]), by simp [load_data, he]⟩
      · exact ⟨(emptyDataset, ["Could not read CSV: " ++ e.message]),
          by simp [load_data, he, PyExc.isException]⟩
  · intro d0 h
    subst h
    rfl
  · intro e h he
    subst h
    simp [load_data, he]
  · intro e h he
    subst h
    simp [load_data, he, PyExc.isException]
  · intro rq cq fields
    rfl

/-- C9 witness: the classification at a concrete missing-file outcome. -/
theorem c9_loader_witness :
    load_data "BONF Research Table MASTER Recipients.csv"
        (.error (.fileNotFoundError "no such file")) =
      .ok (emptyDataset,
        ["File not found: BONF Research Table MASTER Recipients.csv"]) :=
  (c9_loader_total "BONF Research Table MASTER Recipients.csv"
    (.error (.fileNotFoundError "no such file"))).2.2.1
    (.fileNotFoundError "no such file") rfl rfl

/-! ## C10 -/

/-- C10: for every non-empty dataset lacking at least one required column, the
run halts at the schema check with a diagnostic naming exactly the missing
required columns and the first 20 available column names as a hint, and no
table is rendered. -/
theorem c10_schema_halt (d : Dataset) (rq cq : String) (fields : List Field)
    (hne : d.isEmpty = false)
    (hmiss : requiredCols.filter (fun c => ! d.columns.contains c) ≠ []) :
    runApp d rq cq fields =
      .haltedSchema (requiredCols.filter (fun c => ! d.columns.contains c))
        (d.columns.take 20) ∧
    (∀ c, c ∈ requiredCols.filter (fun c => ! d.columns.contains c) ↔
      c ∈ requiredCols ∧ c ∉ d.columns) ∧
    (∀ total matched tab bytes nm,
      runApp d rq cq fields ≠ .rendered total matched tab bytes nm) := by
  have hex : ∃ x ∈ requiredCols, x ∉ d.columns := by
    obtain ⟨c, hcf⟩ := List.exists_mem_of_ne_nil _ hmiss
    have hcf' := List.mem_filter.mp hcf
    refine ⟨c, hcf'.1, ?_⟩
    intro hmem
    have hb := hcf'.2
    rw [Bool.not_eq_true'] at hb
    rw [show d.columns.contains c = List.elem c d.columns from rfl,
      List.elem_iff.mpr hmem] at hb
    exact Bool.noConfusion hb
  have h1 : runApp d rq cq fields =
      .haltedSchema (requiredCols.filter (fun c => ! d.columns.contains c))
        (d.columns.take 20) := by
    unfold runApp
    simp [hne, hmiss]
    exact hex
  refine ⟨h1, ?_, ?_⟩
  · intro c
    rw [List.mem_filter]
    constructor
    · rintro ⟨hc, hb⟩
      rw [Bool.not_eq_true'] at hb
      refine ⟨hc, fun hmem => ?_⟩
      rw [show d.columns.contains c = List.elem c d.columns from rfl,
        List.elem_iff.mpr hmem] at hb
      exact Bool.noConfusion hb
    · rintro ⟨hc, hnm⟩
      refine ⟨hc, ?_⟩
      rw [Bool.not_eq_true', ← Bool.not_eq_true]
      intro hel
      exact hnm (List.elem_iff.mp hel)
  · intro total matched tab bytes nm
    rw [h1]
    exact fun hcontra => AppOutcome.noConfusion hcontra

/-- A non-empty dataset lacking `Lay_Summary`. -/
def dMissing : Dataset :=
  ⟨["Recipients", "Supervisors", "Proposal"], [[some "r", some "s", some "p"]]⟩

/-- C10 witness: the halt with the diagnostic naming `Lay_Summary` on the
concrete dataset `dMissing`. -/
theorem c10_schema_halt_witness :
    runApp dMissing "" "" [] =
      .haltedSchema ["Lay_Summary"] ["Recipients", "Supervisors", "Proposal"] := by
  have h := c10_schema_halt dMissing "" "" [] (by decide) (by decide)
  exact h.1.trans (by decide)

/-! ## CSV writer/reader round trip -/

theorem csvStep_normal_comma (f : Str) (r : List Str) (rs : List (List Str)) :
    csvStep ⟨.normal, f, r, rs⟩ ',' = ⟨.normal, [], f.reverse :: r, rs⟩ := rfl

theorem csvStep_normal_nl (f : Str) (r : List Str) (rs : List (List Str)) :
    csvStep ⟨.normal, f, r, rs⟩ '\n' =
      ⟨.normal, [], [], (f.reverse :: r).reverse :: rs⟩ := rfl

theorem csvStep_normal_quote (r : List Str) (rs : List (List Str)) :
    csvStep ⟨.normal, [], r, rs⟩ '"' = ⟨.quoted, [], r, rs⟩ := rfl

theorem csvStep_normal_plain {c : Char} (h1 : (c == ',') = false)
    (h2 : (c == '\n') = false) (h3 : (c == '"') = false) (f : Str) (r : List Str)
    (rs : List (List Str)) :
    csvStep ⟨.normal, f, r, rs⟩ c = ⟨.normal, c :: f, r, rs⟩ := by
  simp [csvStep, h1, h2, h3]

theorem csvStep_quoted_quote (f : Str) (r : List Str) (rs : List (List Str)) :
    csvStep ⟨.quoted, f, r, rs⟩ '"' = ⟨.afterQuote, f, r, rs⟩ := rfl

theorem csvStep_quoted_other {c : Char} (h : (c == '"') = false) (f : Str)
    (r : List Str) (rs : List (List Str)) :
    csvStep ⟨.quoted, f, r, rs⟩ c = ⟨.quoted, c :: f, r, rs⟩ := by
  simp [csvStep, h]

theorem csvStep_after_quote (f : Str) (r : List Str) (rs : List (List Str)) :
    csvStep ⟨.afterQuote, f, r, rs⟩ '"' = ⟨.quoted, '"' :: f, r, rs⟩ := rfl

theorem csvStep_after_comma (f : Str) (r : List Str) (rs : List (List Str)) :
    csvStep ⟨.afterQuote, f, r, rs⟩ ',' = ⟨.normal, [], f.reverse :: r, rs⟩ := rfl

theorem csvStep_after_nl (f : Str) (r : List Str) (rs : List (List Str)) :
    csvStep ⟨.afterQuote, f, r, rs⟩ '\n' =
      ⟨.normal, [], [], (f.reverse :: r).reverse :: rs⟩ := rfl

theorem foldl_plainChars {s : Str}
    (h : ∀ c ∈ s, (c == ',') = false ∧ (c == '\n') = false ∧ (c == '"') = false)
    (f : Str) (r : List Str) (rs : List (List Str)) :
    s.foldl csvStep ⟨.normal, f, r, rs⟩ = ⟨.normal, s.reverse ++ f, r, rs⟩ := by
  induction s generalizing f with
  | nil => simp
  | cons c t ih =>
    obtain ⟨h1, h2, h3⟩ := h c (List.mem_cons_self c t)
    rw [List.foldl_cons, csvStep_normal_plain h1 h2 h3,
      ih (fun x hx => h x (List.mem_cons_of_mem c hx))]
    simp

theorem foldl_escaped (s : Str) (f : Str) (r : List Str) (rs : List (List Str)) :
    (escapeQuotes s).foldl csvStep ⟨.quoted, f, r, rs⟩ =
      ⟨.quoted, s.reverse ++ f, r, rs⟩ := by
  induction s generalizing f with
  | nil => simp [escapeQuotes]
  | cons c t ih =>
    by_cases hc : (c == '"') = true
    · have hceq : c = '"' := beq_iff_eq.mp hc
      subst hceq
      show (escapeQuotes ('"' :: t)).foldl csvStep _ = _
      rw [show escapeQuotes ('"' :: t) = '"' :: '"' :: escapeQuotes t from by
        simp [escapeQuotes]]
      rw [List.foldl_cons, csvStep_quoted_quote, List.foldl_cons,
        csvStep_after_quote, ih]
      simp
    · have hc' : (c == '"') = false := beq_eq_false_iff_ne.mpr (by simpa using hc)
      rw [show escapeQuotes (c :: t) = c :: escapeQuotes t from by
        simp [escapeQuotes, hc']]
      rw [List.foldl_cons, csvStep_quoted_other hc', ih]
      simp

theorem not_needsQuoting_all {s : Str} (h : needsQuoting s = false) :
    ∀ c ∈ s, (c == ',') = false ∧ (c == '\n') = false ∧ (c == '"') = false := by
  intro c hc
  have hcc : ((c == ',' || c == '"' || c == '\n') || c == '\x0d') = false := by
    by_contra hb
    have hb' : ((c == ',' || c == '"' || c == '\n') || c == '\x0d') = true := by
      revert hb
      cases ((c == ',' || c == '"' || c == '\n') || c == '\x0d') <;> simp
    have hany : needsQuoting s = true := List.any_eq_true.mpr ⟨c, hc, hb'⟩
    rw [h] at hany
    exact Bool.noConfusion hany
  rw [Bool.or_eq_false_iff, Bool.or_eq_false_iff, Bool.or_eq_false_iff] at hcc
  exact ⟨hcc.1.1.1, hcc.1.2, hcc.1.1.2⟩

theorem foldl_field_comma (s : Str) (r : List Str) (rs : List (List Str)) :
    (writeTextField s ++ [',']).foldl csvStep ⟨.normal, [], r, rs⟩ =
      ⟨.normal, [], s :: r, rs⟩ := by
  unfold writeTextField
  by_cases hq : needsQuoting s = true
  · rw [if_pos hq]
    rw [show ('"' :: (escapeQuotes s ++ ['"'])) ++ [','] =
      '"' :: (escapeQuotes s ++ (['"'] ++ [','])) from by simp]
    rw [List.foldl_cons, csvStep_normal_quote, ← List.append_assoc,
      List.foldl_append, List.foldl_append, foldl_escaped]
    simp [csvStep_quoted_quote, csvStep_after_comma]
  · rw [if_neg hq]
    rw [List.foldl_append, foldl_plainChars
      (not_needsQuoting_all (Bool.not_eq_true _ ▸ hq)) [] r rs]
    simp [csvStep_normal_comma]

theorem foldl_field_nl (s : Str) (r : List Str) (rs : List (List Str)) :
    (writeTextField s ++ ['\n']).foldl csvStep ⟨.normal, [], r, rs⟩ =
      ⟨.normal, [], [], (s :: r).reverse :: rs⟩ := by
  unfold writeTextField
  by_cases hq : needsQuoting s = true
  · rw [if_pos hq]
    rw [show ('"' :: (escapeQuotes s ++ ['"'])) ++ ['\n'] =
      '"' :: (escapeQuotes s ++ (['"'] ++ ['\n'])) from by simp]
    rw [List.foldl_cons, csvStep_normal_quote, ← List.append_assoc,
      List.foldl_append, List.foldl_append, foldl_escaped]
    simp [csvStep_quoted_quote, csvStep_after_nl]
  · rw [if_neg hq]
    rw [List.foldl_append, foldl_plainChars
      (not_needsQuoting_all (Bool.not_eq_true _ ▸ hq)) [] r rs]
    simp [csvStep_normal_nl]

theorem foldl_record {fs : List Str} (hfs : fs ≠ []) (r : List Str)
    (rs : List (List Str)) :
    (recordStr fs).foldl csvStep ⟨.normal, [], r, rs⟩ =
      ⟨.normal, [], [], (fs.reverse ++ r).reverse :: rs⟩ := by
  induction fs generalizing r with
  | nil => exact absurd rfl hfs
  | cons f t ih =>
    cases t with
    | nil =>
      show (recordStr [f]).foldl csvStep _ = _
      rw [show recordStr [f] = writeTextField f ++ ['\n'] from rfl, foldl_field_nl]
      simp
    | cons g t' =>
      rw [show recordStr (f :: g :: t') =
        (writeTextField f ++ [',']) ++ recordStr (g :: t') from by
          simp [recordStr, joinSep]]
      rw [List.foldl_append, foldl_field_comma, ih (by simp)]
      simp

theorem foldl_records {recs : List (List Str)} (h : ∀ rec ∈ recs, rec ≠ [])
    (rs : List (List Str)) :
    ((recs.map recordStr).flatten).foldl csvStep ⟨.normal, [], [], rs⟩ =
      ⟨.normal, [], [], recs.reverse ++ rs⟩ := by
  induction recs generalizing rs with
  | nil => simp
  | cons rec t ih =>
    rw [List.map_cons, List.flatten_cons, List.foldl_append,
      foldl_record (h rec (List.mem_cons_self rec t)) [] rs,
      ih (fun x hx => h x (List.mem_cons_of_mem rec hx))]
    simp

theorem csvParse_toCsv (cols : List String) (rows : List (List Cell))
    (hcols : cols ≠ []) (hrows : ∀ r ∈ rows, r ≠ []) :
    csvParse (toCsv ⟨cols, rows⟩) =
      (cols.map String.data) :: rows.map (fun r => r.map cellRaw) := by
  have hshape : toCsv ⟨cols, rows⟩ =
      (((cols.map String.data) :: rows.map (fun r => r.map cellRaw)).map
        recordStr).flatten := by
    simp only [toCsv, List.map_cons, List.flatten_cons, List.map_map]
    rfl
  rw [hshape]
  unfold csvParse csvInit
  rw [foldl_records ?hne []]
  case hne =>
    intro rec hrec
    rcases List.mem_cons.mp hrec with hrec | hrec
    · subst hrec
      intro hc
      exact hcols (List.map_eq_nil.mp hc)
    · obtain ⟨r0, hr0, rfl⟩ := List.mem_map.mp hrec
      intro hc
      exact hrows r0 hr0 (List.map_eq_nil.mp hc)
  simp [csvFinish]

/-! ## UTF-8 round trip -/

theorem char_toNat_lt (c : Char) : c.toNat < 1114112 := by
  have h := c.valid
  rw [Char.toNat]
  rcases h with h | h <;> omega

theorem utf8Step_ascii {cs : Str} {b : Nat} (h : b < 0x80) :
    utf8Step ⟨some cs, 0, 0⟩ b = ⟨some (Char.ofNat b :: cs), 0, 0⟩ := by
  unfold utf8Step
  dsimp only
  rw [if_pos rfl, if_pos h]

theorem utf8Step_lead2 {cs : Str} {b : Nat} (h1 : 0xC2 ≤ b) (h2 : b < 0xE0) :
    utf8Step ⟨some cs, 0, 0⟩ b = ⟨some cs, b - 0xC0, 1⟩ := by
  unfold utf8Step
  dsimp only
  rw [if_pos rfl, if_neg (by omega), if_neg (by omega), if_pos h2]

theorem utf8Step_lead3 {cs : Str} {b : Nat} (h1 : 0xE0 ≤ b) (h2 : b < 0xF0) :
    utf8Step ⟨some cs, 0, 0⟩ b = ⟨some cs, b - 0xE0, 2⟩ := by
  unfold utf8Step
  dsimp only
  rw [if_pos rfl, if_neg (by omega), if_neg (by omega), if_neg (by omega),
    if_pos h2]

theorem utf8Step_lead4 {cs : Str} {b : Nat} (h1 : 0xF0 ≤ b) (h2 : b < 0xF5) :
    utf8Step ⟨some cs, 0, 0⟩ b = ⟨some cs, b - 0xF0, 3⟩ := by
  unfold utf8Step
  dsimp only
  rw [if_pos rfl, if_neg (by omega), if_neg (by omega), if_neg (by omega),
    if_neg (by omega), if_pos h2]

theorem utf8Step_cont_last {cs : Str} {p b : Nat} (h : 0x80 ≤ b ∧ b < 0xC0) :
    utf8Step ⟨some cs, p, 1⟩ b =
      ⟨some (Char.ofNat (p * 64 + (b - 0x80)) :: cs), 0, 0⟩ := by
  unfold utf8Step
  dsimp only
  rw [if_neg (by omega), if_pos h, if_pos rfl]

theorem utf8Step_cont_mid {cs : Str} {p n b : Nat} (hn : n ≠ 0) (hn1 : n ≠ 1)
    (h : 0x80 ≤ b ∧ b < 0xC0) :
    utf8Step ⟨some cs, p, n⟩ b = ⟨some cs, p * 64 + (b - 0x80), n - 1⟩ := by
  unfold utf8Step
  dsimp only
  rw [if_neg hn, if_pos h, if_neg hn1]

theorem foldl_utf8EncodeChar (c : Char) (cs : Str) :
    (utf8EncodeChar c).foldl utf8Step ⟨some cs, 0, 0⟩ = ⟨some (c :: cs), 0, 0⟩ := by
  have hofnat : Char.ofNat c.toNat = c := Char.ofNat_toNat c
  have hlt : c.toNat < 1114112 := char_toNat_lt c
  unfold utf8EncodeChar
  by_cases h1 : c.toNat < 0x80
  · rw [if_pos h1, List.foldl_cons, utf8Step_ascii h1, List.foldl_nil, hofnat]
  · rw [if_neg h1]
    by_cases h2 : c.toNat < 0x800
    · rw [if_pos h2, List.foldl_cons, utf8Step_lead2 (by omega) (by omega),
        List.foldl_cons, utf8Step_cont_last (by omega), List.foldl_nil]
      have harith : (0xC0 + c.toNat / 64 - 0xC0) * 64 + (0x80 + c.toNat % 64 - 0x80) =
          c.toNat := by omega
      rw [harith, hofnat]
    · rw [if_neg h2]
      by_cases h3 : c.toNat < 0x10000
      · rw [if_pos h3, List.foldl_cons, utf8Step_lead3 (by omega) (by omega),
          List.foldl_cons, utf8Step_cont_mid (by omega) (by omega) (by omega),
          List.foldl_cons, utf8Step_cont_last (by omega), List.foldl_nil]
        have harith : ((0xE0 + c.toNat / 4096 - 0xE0) * 64 +
            (0x80 + c.toNat / 64 % 64 - 0x80)) * 64 + (0x80 + c.toNat % 64 - 0x80) =
            c.toNat := by omega
        rw [harith, hofnat]
      · rw [if_neg h3, List.foldl_cons, utf8Step_lead4 (by omega) (by omega),
          List.foldl_cons, utf8Step_cont_mid (by omega) (by omega) (by omega),
          List.foldl_cons, utf8Step_cont_mid (by omega) (by omega) (by omega),
          List.foldl_cons, utf8Step_cont_last (by omega), List.foldl_nil]
        have harith : (((0xF0 + c.toNat / 0x40000 - 0xF0) * 64 +
            (0x80 + c.toNat / 4096 % 64 - 0x80)) * 64 +
            (0x80 + c.toNat / 64 % 64 - 0x80)) * 64 + (0x80 + c.toNat % 64 - 0x80) =
            c.toNat := by omega
        rw [harith, hofnat]

theorem foldl_utf8Encode (s : Str) : ∀ cs : Str,
    (utf8Encode s).foldl utf8Step ⟨some cs, 0, 0⟩ = ⟨some (s.reverse ++ cs), 0, 0⟩ := by
  induction s with
  | nil => intro cs; simp [utf8Encode]
  | cons c t ih =>
    intro cs
    rw [show utf8Encode (c :: t) = utf8EncodeChar c ++ utf8Encode t from by
      simp [utf8Encode]]
    rw [List.foldl_append, foldl_utf8EncodeChar, ih]
    simp

theorem utf8Decode_encode (s : Str) : utf8Decode (utf8Encode s) = some s := by
  unfold utf8Decode
  rw [foldl_utf8Encode s []]
  simp

theorem decodeUtf8Sig_encode (s : Str) : decodeUtf8Sig (encodeUtf8Sig s) = some s := by
  unfold decodeUtf8Sig encodeUtf8Sig
  rw [if_pos ?pre]
  case pre =>
    rw [List.isPrefixOf_iff_prefix]
    exact List.prefix_append _ _
  rw [show (bomBytes ++ utf8Encode s).drop 3 = utf8Encode s from rfl]
  exact utf8Decode_encode s

/-! ## C8 -/

theorem cellsRaw_fieldCell {row : List Cell} (h : ∀ cell ∈ row, cell ≠ some "") :
    (row.map cellRaw).map fieldCell = row := by
  induction row with
  | nil => rfl
  | cons cell t ih =>
    rw [List.map_cons, List.map_cons,
      ih (fun x hx => h x (List.mem_cons_of_mem cell hx))]
    congr 1
    cases cell with
    | none => rfl
    | some s =>
      have hs : s.data ≠ [] := by
        intro hc
        apply h (some s) (List.mem_cons_self _ _)
        have hse : s = String.mk s.data := rfl
        rw [hse, hc]
      show fieldCell (cellRaw (some s)) = some s
      unfold cellRaw fieldCell
      rw [if_neg hs]

theorem getCell_mem {cols : List String} {r : List Cell} {c : String}
    (hc : c ∈ cols) (hlen : cols.length ≤ r.length) : getCell cols r c ∈ r := by
  unfold getCell
  have hlt : cols.indexOf c < r.length :=
    lt_of_lt_of_le (List.indexOf_lt_length.mpr hc) hlen
  rw [List.get?_eq_get hlt, Option.getD_some]
  exact List.get_mem r _ hlt

/-- C8: the export artifact is the comma-separated serialization of the
filtered and reordered table, UTF-8 encoded with a byte-order marker, under
the fixed file name `BONF_recipients_filtered_results.csv`; decoding the
bytes (byte-order marker, UTF-8 decode, comma-separated parse) and restoring
the original column order reproduces exactly the rows of the Filtered view.
The hypotheses state that the dataset is schema-valid with distinct column
names, rows parallel to the columns, and no cell holding the empty string
(a loaded CSV reads empty fields as missing values, never as empty text). -/
theorem c8_export_roundtrip (d : Dataset) (rq cq : String) (fields : List Field)
    (hnd : d.columns.Nodup) (hreq : requiredCols ⊆ d.columns)
    (hlen : ∀ r ∈ d.rows, r.length = d.columns.length)
    (hner : ∀ r ∈ d.rows, ∀ cell ∈ r, cell ≠ some "") :
    downloadName = "BONF_recipients_filtered_results.csv" ∧
    decodeUtf8Sig (encodeUtf8Sig (toCsv (reorderCols (filterData d rq cq fields)))) =
      some (toCsv (reorderCols (filterData d rq cq fields))) ∧
    restoredRows (csvParse (toCsv (reorderCols (filterData d rq cq fields))))
      d.columns = (filterData d rq cq fields).rows := by
  refine ⟨rfl, decodeUtf8Sig_encode _, ?_⟩
  have hrescols : (filterData d rq cq fields).columns = d.columns :=
    filterData_columns d rq cq fields
  have hressub : ∀ r ∈ (filterData d rq cq fields).rows, r ∈ d.rows :=
    fun r hr => (mem_filterData.mp hr).1
  have hodsub : ∀ c ∈ (reorderCols (filterData d rq cq fields)).columns,
      c ∈ d.columns := by
    intro c hcm
    rw [reorderCols_columns, List.mem_append] at hcm
    rcases hcm with hcm | hcm
    · exact hreq hcm
    · rw [hrescols] at hcm
      exact (List.mem_filter.mp hcm).1
  have hodne : (reorderCols (filterData d rq cq fields)).columns ≠ [] := by
    rw [reorderCols_columns]
    simp [frontCols]
  have hodrows : (reorderCols (filterData d rq cq fields)).rows =
      (filterData d rq cq fields).rows.map
        (fun r => (reorderCols (filterData d rq cq fields)).columns.map
          (fun c => getCell d.columns r c)) := by
    simp only [reorderCols, selectCols, reorderCols_columns, hrescols]
  have hcsv : csvParse (toCsv (reorderCols (filterData d rq cq fields))) =
      ((reorderCols (filterData d rq cq fields)).columns.map String.data) ::
        (reorderCols (filterData d rq cq fields)).rows.map
          (fun r => r.map cellRaw) := by
    have hrowsne : ∀ r ∈ (reorderCols (filterData d rq cq fields)).rows,
        r ≠ [] := by
      intro r hr
      rw [hodrows] at hr
      obtain ⟨r0, _, rfl⟩ := List.mem_map.mp hr
      intro hc
      exact hodne (List.map_eq_nil.mp hc)
    exact csvParse_toCsv _ _ hodne hrowsne
  rw [hcsv]
  unfold restoredRows
  dsimp only
  have hmk : (((reorderCols (filterData d rq cq fields)).columns.map
      String.data).map String.mk) = (reorderCols (filterData d rq cq fields)).columns := by
    rw [List.map_map]
    have hid : String.mk ∘ String.data = id := funext fun s => rfl
    rw [hid, List.map_id]
  rw [hmk, hodrows, List.map_map, List.map_map]
  have hpoint : ∀ r ∈ (filterData d rq cq fields).rows,
      d.columns.map (fun c =>
        getCell (reorderCols (filterData d rq cq fields)).columns
          ((((reorderCols (filterData d rq cq fields)).columns.map
              (fun c' => getCell d.columns r c')).map cellRaw).map fieldCell) c) = r := by
    intro r hr
    have hrd : r ∈ d.rows := hressub r hr
    have hrl : r.length = d.columns.length := hlen r hrd
    have hcells : ∀ cell ∈ (reorderCols (filterData d rq cq fields)).columns.map
        (fun c' => getCell d.columns r c'), cell ≠ some "" := by
      intro cell hcell
      obtain ⟨c0, hc0, rfl⟩ := List.mem_map.mp hcell
      exact hner r hrd _ (getCell_mem (hodsub c0 hc0) (le_of_eq hrl.symm))
    rw [cellsRaw_fieldCell hcells]
    have hmapsame : d.columns.map (fun c =>
        getCell (reorderCols (filterData d rq cq fields)).columns
          ((reorderCols (filterData d rq cq fields)).columns.map
            (fun c' => getCell d.columns r c')) c) =
        d.columns.map (fun c => getCell d.columns r c) := by
      apply List.map_congr_left
      intro c hc
      have hcod : c ∈ (reorderCols (filterData d rq cq fields)).columns :=
        mem_reorderCols_columns (by rw [hrescols]; exact hc)
      exact getCell_map_self hcod _
    rw [hmapsame]
    exact row_reconstruct hnd hrl
  calc (filterData d rq cq fields).rows.map _ =
      (filterData d rq cq fields).rows.map id := List.map_congr_left ?_
    _ = (filterData d rq cq fields).rows := List.map_id _
  intro r hr
  exact hpoint r hr

/-- C8 witness: the export round trip at the concrete dataset `dWide`. -/
theorem c8_export_roundtrip_witness :
    restoredRows (csvParse (toCsv (reorderCols (filterData dWide "" "" []))))
      dWide.columns = (filterData dWide "" "" []).rows ∧
    decodeUtf8Sig (encodeUtf8Sig (toCsv (reorderCols (filterData dWide "" "" [])))) =
      some (toCsv (reorderCols (filterData dWide "" "" []))) := by
  have h := c8_export_roundtrip dWide "" "" [] (by decide)
    (by intro a ha; fin_cases ha <;> decide) (by decide) (by decide)
  exact ⟨h.2.2, h.2.1⟩

end BranchOut
